import Mathlib

/-!
Verification development for the Arcforge realtime multiplayer backend.

Shallow embedding of the core subsystems:
* protocol envelope and the JSON codec (crates/arcforge-protocol),
* session registry (crates/arcforge-session/src/manager.rs),
* room actor (crates/arcforge-room/src/room.rs),
* fixed-timestep tick scheduler (crates/arcforge-tick/src/lib.rs),
* connection handler handshake and system-message dispatch
  (crates/arcforge/src/handler.rs).

Machine integers (`u64`, `u32`, `u16`, `u8`, `usize`) are modelled as `Nat`;
where serde would reject an out-of-range number the decoders check the bound
explicitly and well-formedness predicates record the bounds the Rust types
guarantee by construction.  Wall-clock instants and durations are modelled as
`Nat` time units.
-/

set_option maxHeartbeats 1000000

-- =========================================================================
-- Protocol types (crates/arcforge-protocol/src/types.rs)
-- =========================================================================

/-- Rust `PlayerId` is a transparent newtype over `u64`; modelled as `Nat`. -/
abbrev PlayerId := Nat

/-- Rust `RoomId` is a transparent newtype over `u64`; modelled as `Nat`. -/
abbrev RoomId := Nat

/-- Delivery-guarantee tag of an envelope (`enum Channel`). -/
inductive Channel where
  | reliableOrdered
  | reliableUnordered
  | unreliable
deriving DecidableEq

/-- Rust `Channel::default()` is `ReliableOrdered` (the `#[default]` variant). -/
def Channel.default : Channel := .reliableOrdered

/-- Fan-out class of an outbound game message (`enum Recipient`). -/
inductive Recipient where
  | all
  | player (p : PlayerId)
  | allExcept (p : PlayerId)
deriving DecidableEq

/-- One room summary in a `RoomList` reply (`struct RoomListEntry`). -/
structure RoomListEntry where
  room_id : RoomId
  player_count : Nat
  max_players : Nat
deriving DecidableEq

/-- Framework-level messages (`enum SystemMessage`, internally tagged by
`"type"` on the wire).  `Vec<u8>` fields are `List Nat` of byte values. -/
inductive SystemMessage where
  | handshake (version : Nat) (token : Option String)
  | handshakeAck (player_id : PlayerId) (server_time : Nat)
  | disconnect (reason : String)
  | heartbeat (client_time : Nat)
  | heartbeatAck (client_time : Nat) (server_time : Nat)
  | joinRoom (room_id : RoomId)
  | joinOrCreate (name : String) (options : List Nat)
  | leaveRoom
  | listRooms
  | roomList (rooms : List RoomListEntry)
  | roomState (data : List Nat)
  | roomJoined (room_id : RoomId) (session_id : String)
  | error (code : Nat) (message : String)
deriving DecidableEq

/-- Envelope payload (`enum Payload`, adjacently tagged with
`tag = "type", content = "data"` on the wire). -/
inductive Payload where
  | system (msg : SystemMessage)
  | game (data : List Nat)
deriving DecidableEq

/-- The top-level wire frame (`struct Envelope`).  The `channel` field
carries `#[serde(default)]`. -/
structure Envelope where
  seq : Nat
  timestamp : Nat
  channel : Channel
  payload : Payload
deriving DecidableEq

-- =========================================================================
-- JSON value model (the serde_json value level that `JsonCodec` targets)
-- =========================================================================

/-- JSON values produced and consumed by `serde_json`.  `JsonCodec` encodes
to UTF-8 bytes via `serde_json::to_vec` and decodes via
`serde_json::from_slice`; both factor through this value level, which is
where the derived `Serialize`/`Deserialize` implementations operate.
All numbers serialized by the protocol are unsigned integers. -/
inductive Json where
  | null
  | num (n : Nat)
  | str (s : String)
  | arr (elems : List Json)
  | obj (fields : List (String × Json))

/-- Looks up a key in the field list of a JSON object (first match).
Serde's map deserialization reads fields in any order, so decoding is
defined via lookup rather than positionally. -/
def findField : List (String × Json) → String → Option Json
  | [], _ => none
  | (k, v) :: rest, key => if k = key then some v else findField rest key

/-- Field lookup on a JSON value; `none` on non-objects. -/
def Json.getField : Json → String → Option Json
  | .obj fields, key => findField fields key
  | _, _ => none

/-- Reads an unsigned-integer field, enforcing the width bound the Rust
integer type enforces (serde rejects out-of-range numbers). -/
def Json.getNat (j : Json) (key : String) (bound : Nat) : Option Nat :=
  match j.getField key with
  | some (.num n) => if n < bound then some n else none
  | _ => none

/-- Reads a string field. -/
def Json.getStr (j : Json) (key : String) : Option String :=
  match j.getField key with
  | some (.str s) => some s
  | _ => none

/-- Bound of `u8`. -/
def u8Bound : Nat := 2 ^ 8

/-- Bound of `u16`. -/
def u16Bound : Nat := 2 ^ 16

/-- Bound of `u32`. -/
def u32Bound : Nat := 2 ^ 32

/-- Bound of `u64` (also of `usize` on the 64-bit targets the server runs on). -/
def u64Bound : Nat := 2 ^ 64

-- =========================================================================
-- Serialization (derived `Serialize` impls, field order = declaration order)
-- =========================================================================

/-- Rust `Channel` serializes as its PascalCase variant name
(`#[serde(rename_all = "PascalCase")]`). -/
def Channel.toJson : Channel → Json
  | .reliableOrdered => .str "ReliableOrdered"
  | .reliableUnordered => .str "ReliableUnordered"
  | .unreliable => .str "Unreliable"

/-- Rust `Vec<u8>` serializes as a JSON array of numbers. -/
def bytesToJson (bs : List Nat) : Json := .arr (bs.map Json.num)

/-- Rust `Option<String>` serializes as `null` or the string. -/
def optStrToJson : Option String → Json
  | none => .null
  | some s => .str s

/-- Rust `RoomListEntry` serializes as a plain struct. -/
def RoomListEntry.toJson (e : RoomListEntry) : Json :=
  .obj [("room_id", .num e.room_id), ("player_count", .num e.player_count),
        ("max_players", .num e.max_players)]

/-- Rust `SystemMessage` serializes internally tagged: the `"type"` tag first,
then the variant fields in declaration order. -/
def SystemMessage.toJson : SystemMessage → Json
  | .handshake version token =>
      .obj [("type", .str "Handshake"), ("version", .num version),
            ("token", optStrToJson token)]
  | .handshakeAck player_id server_time =>
      .obj [("type", .str "HandshakeAck"), ("player_id", .num player_id),
            ("server_time", .num server_time)]
  | .disconnect reason =>
      .obj [("type", .str "Disconnect"), ("reason", .str reason)]
  | .heartbeat client_time =>
      .obj [("type", .str "Heartbeat"), ("client_time", .num client_time)]
  | .heartbeatAck client_time server_time =>
      .obj [("type", .str "HeartbeatAck"), ("client_time", .num client_time),
            ("server_time", .num server_time)]
  | .joinRoom room_id =>
      .obj [("type", .str "JoinRoom"), ("room_id", .num room_id)]
  | .joinOrCreate name options =>
      .obj [("type", .str "JoinOrCreate"), ("name", .str name),
            ("options", bytesToJson options)]
  | .leaveRoom => .obj [("type", .str "LeaveRoom")]
  | .listRooms => .obj [("type", .str "ListRooms")]
  | .roomList rooms =>
      .obj [("type", .str "RoomList"),
            ("rooms", .arr (rooms.map RoomListEntry.toJson))]
  | .roomState data =>
      .obj [("type", .str "RoomState"), ("data", bytesToJson data)]
  | .roomJoined room_id session_id =>
      .obj [("type", .str "RoomJoined"), ("room_id", .num room_id),
            ("session_id", .str session_id)]
  | .error code message =>
      .obj [("type", .str "Error"), ("code", .num code),
            ("message", .str message)]

/-- Rust `Payload` serializes adjacently tagged (`tag = "type", content = "data"`). -/
def Payload.toJson : Payload → Json
  | .system msg => .obj [("type", .str "System"), ("data", msg.toJson)]
  | .game data => .obj [("type", .str "Game"), ("data", bytesToJson data)]

/-- Rust `Envelope` serializes as a plain struct, fields in declaration order. -/
def Envelope.toJson (e : Envelope) : Json :=
  .obj [("seq", .num e.seq), ("timestamp", .num e.timestamp),
        ("channel", e.channel.toJson), ("payload", e.payload.toJson)]

-- =========================================================================
-- Deserialization (derived `Deserialize` impls)
-- =========================================================================

/-- Decodes a `Channel` from its PascalCase string form. -/
def Channel.fromJson : Json → Option Channel
  | .str "ReliableOrdered" => some .reliableOrdered
  | .str "ReliableUnordered" => some .reliableUnordered
  | .str "Unreliable" => some .unreliable
  | _ => none

/-- Decodes a list of JSON numbers as bytes, rejecting values ≥ 256 as the
`u8` deserializer does. -/
def decodeByteElems : List Json → Option (List Nat)
  | [] => some []
  | .num n :: rest =>
      if n < u8Bound then (decodeByteElems rest).map (n :: ·) else none
  | _ :: _ => none

/-- Decodes a `Vec<u8>`. -/
def decodeBytes : Json → Option (List Nat)
  | .arr elems => decodeByteElems elems
  | _ => none

/-- Decodes the optional `token` field of `Handshake`.  Serde maps a missing
key or `null` to `None` (via the `Option` specialization of
`missing_field`), a string to `Some`, and anything else to an error. -/
def decodeTokenField (j : Json) : Option (Option String) :=
  match j.getField "token" with
  | none => some none
  | some Json.null => some none
  | some (Json.str s) => some (some s)
  | some _ => none

/-- Decodes one `RoomListEntry`. -/
def RoomListEntry.fromJson (j : Json) : Option RoomListEntry :=
  match j.getNat "room_id" u64Bound, j.getNat "player_count" u64Bound,
        j.getNat "max_players" u64Bound with
  | some r, some p, some m => some ⟨r, p, m⟩
  | _, _, _ => none

/-- Decodes the `rooms` array of a `RoomList`. -/
def decodeEntries : List Json → Option (List RoomListEntry)
  | [] => some []
  | j :: rest =>
      match RoomListEntry.fromJson j with
      | some e => (decodeEntries rest).map (e :: ·)
      | none => none

/-- Decodes a `SystemMessage` by its internal `"type"` tag (the derived
deserializer dispatches on the tag string, then reads the variant's
fields). -/
def SystemMessage.fromJson (j : Json) : Option SystemMessage :=
  match j.getStr "type" with
  | none => none
  | some tag =>
    if tag = "Handshake" then
      match j.getNat "version" u32Bound, decodeTokenField j with
      | some v, some t => some (.handshake v t)
      | _, _ => none
    else if tag = "HandshakeAck" then
      match j.getNat "player_id" u64Bound, j.getNat "server_time" u64Bound with
      | some p, some s => some (.handshakeAck p s)
      | _, _ => none
    else if tag = "Disconnect" then
      match j.getStr "reason" with
      | some r => some (.disconnect r)
      | none => none
    else if tag = "Heartbeat" then
      match j.getNat "client_time" u64Bound with
      | some c => some (.heartbeat c)
      | none => none
    else if tag = "HeartbeatAck" then
      match j.getNat "client_time" u64Bound, j.getNat "server_time" u64Bound with
      | some c, some s => some (.heartbeatAck c s)
      | _, _ => none
    else if tag = "JoinRoom" then
      match j.getNat "room_id" u64Bound with
      | some r => some (.joinRoom r)
      | none => none
    else if tag = "JoinOrCreate" then
      match j.getStr "name", j.getField "options" with
      | some n, some oj =>
          match decodeBytes oj with
          | some o => some (.joinOrCreate n o)
          | none => none
      | _, _ => none
    else if tag = "LeaveRoom" then some .leaveRoom
    else if tag = "ListRooms" then some .listRooms
    else if tag = "RoomList" then
      match j.getField "rooms" with
      | some (.arr js) =>
          match decodeEntries js with
          | some rs => some (.roomList rs)
          | none => none
      | _ => none
    else if tag = "RoomState" then
      match j.getField "data" with
      | some dj =>
          match decodeBytes dj with
          | some d => some (.roomState d)
          | none => none
      | none => none
    else if tag = "RoomJoined" then
      match j.getNat "room_id" u64Bound, j.getStr "session_id" with
      | some r, some s => some (.roomJoined r s)
      | _, _ => none
    else if tag = "Error" then
      match j.getNat "code" u16Bound, j.getStr "message" with
      | some c, some m => some (.error c m)
      | _, _ => none
    else none

/-- Decodes a `Payload` by its adjacent `"type"` tag. -/
def Payload.fromJson (j : Json) : Option Payload :=
  match j.getStr "type" with
  | none => none
  | some tag =>
    if tag = "System" then
      match j.getField "data" with
      | some dj =>
          match SystemMessage.fromJson dj with
          | some m => some (.system m)
          | none => none
      | none => none
    else if tag = "Game" then
      match j.getField "data" with
      | some dj =>
          match decodeBytes dj with
          | some d => some (.game d)
          | none => none
      | none => none
    else none

/-- Decodes an `Envelope`.  A missing `channel` field falls back to
`Channel::default()` per `#[serde(default)]`. -/
def Envelope.fromJson (j : Json) : Option Envelope :=
  match j.getNat "seq" u64Bound, j.getNat "timestamp" u64Bound with
  | some s, some t =>
      let chan : Option Channel :=
        match j.getField "channel" with
        | none => some Channel.default
        | some cj => Channel.fromJson cj
      match chan, j.getField "payload" with
      | some c, some pj =>
          match Payload.fromJson pj with
          | some p => some ⟨s, t, c, p⟩
          | none => none
      | _, _ => none
  | _, _ => none

/-- Rust `JsonCodec::encode` specialized at `Envelope` (value level). -/
def JsonCodec.encode (e : Envelope) : Json := e.toJson

/-- Rust `JsonCodec::decode` specialized at `Envelope` (value level); `some`
models `Ok`, `none` models `Err(ProtocolError::Decode)`. -/
def JsonCodec.decode (j : Json) : Option Envelope := Envelope.fromJson j

-- =========================================================================
-- Well-formedness: the bounds the Rust integer types carry by construction
-- =========================================================================

/-- Field bounds guaranteed by the Rust types of each `SystemMessage`
variant (`u32` version, `u64` ids and times, `u16` code, `u8` bytes,
`usize` counts). -/
def SystemMessage.wf : SystemMessage → Prop
  | .handshake version _ => version < u32Bound
  | .handshakeAck player_id server_time =>
      player_id < u64Bound ∧ server_time < u64Bound
  | .disconnect _ => True
  | .heartbeat client_time => client_time < u64Bound
  | .heartbeatAck client_time server_time =>
      client_time < u64Bound ∧ server_time < u64Bound
  | .joinRoom room_id => room_id < u64Bound
  | .joinOrCreate _ options => ∀ b ∈ options, b < u8Bound
  | .leaveRoom => True
  | .listRooms => True
  | .roomList rooms => ∀ e ∈ rooms,
      e.room_id < u64Bound ∧ e.player_count < u64Bound ∧ e.max_players < u64Bound
  | .roomState data => ∀ b ∈ data, b < u8Bound
  | .roomJoined room_id _ => room_id < u64Bound
  | .error code _ => code < u16Bound

/-- Field bounds guaranteed by the Rust type of each `Payload` variant. -/
def Payload.wf : Payload → Prop
  | .system msg => msg.wf
  | .game data => ∀ b ∈ data, b < u8Bound

/-- Field bounds guaranteed by the Rust `Envelope` type. -/
def Envelope.wf (e : Envelope) : Prop :=
  e.seq < u64Bound ∧ e.timestamp < u64Bound ∧ e.payload.wf

instance : DecidablePred SystemMessage.wf := by
  intro m
  cases m <;> simp only [SystemMessage.wf] <;> infer_instance

instance : DecidablePred Payload.wf := by
  intro p
  cases p <;> simp only [Payload.wf] <;> infer_instance

instance (e : Envelope) : Decidable e.wf := by
  unfold Envelope.wf
  infer_instance

-- =========================================================================
-- Association-list maps (modelling std::collections::HashMap key → value)
-- =========================================================================

/-- Lookup in an association list (models `HashMap::get`). -/
def mapFind {α β : Type} [DecidableEq α] (k : α) : List (α × β) → Option β
  | [] => none
  | (k', v) :: rest => if k' = k then some v else mapFind k rest

/-- Removes every entry with the given key (models `HashMap::remove`;
identical on maps without duplicate keys). -/
def mapEraseKey {α β : Type} [DecidableEq α] (k : α) :
    List (α × β) → List (α × β)
  | [] => []
  | (k', v) :: rest =>
      if k' = k then mapEraseKey k rest else (k', v) :: mapEraseKey k rest

/-- Inserts a binding, replacing any previous binding of the key
(models `HashMap::insert`). -/
def mapInsert {α β : Type} [DecidableEq α] (k : α) (v : β)
    (m : List (α × β)) : List (α × β) :=
  (k, v) :: mapEraseKey k m

-- =========================================================================
-- Session layer (crates/arcforge-session)
-- =========================================================================

/-- Errors of the session layer (`enum SessionError`). -/
inductive SessionError where
  | authFailed (reason : String)
  | notFound (p : PlayerId)
  | invalidToken
  | sessionExpired (p : PlayerId)
  | alreadyConnected (p : PlayerId)
deriving DecidableEq

/-- Lifecycle state of a session (`enum SessionState`); the `Instant` in
`Disconnected { since }` is a `Nat` time stamp. -/
inductive SessionState where
  | connected
  | disconnected (since : Nat)
  | expired
deriving DecidableEq

/-- A player's session record (`struct Session`). -/
structure Session where
  player_id : PlayerId
  state : SessionState
  reconnect_token : String
deriving DecidableEq

/-- The session registry (`struct SessionManager`): sessions keyed by
player id, the token → player index, and the grace period
(`config.reconnect_grace_secs`, here in abstract time units). -/
structure SessionManager where
  sessions : List (PlayerId × Session)
  tokens : List (String × PlayerId)
  grace : Nat
deriving DecidableEq

/-- Rust `SessionManager::new` with the given grace period. -/
def SessionManager.new (grace : Nat) : SessionManager := ⟨[], [], grace⟩

/-- Rust `SessionManager::create`.  The random `generate_token()` result is
passed in as `token`.  If a prior session exists and is `Connected`, fail
with `AlreadyConnected`; otherwise drop the old token (if any), store a
fresh `Connected` session, and index the new token. -/
def SessionManager.create (m : SessionManager) (player_id : PlayerId)
    (token : String) : SessionManager × Except SessionError Session :=
  match mapFind player_id m.sessions with
  | some existing =>
      if existing.state = .connected then
        (m, .error (.alreadyConnected player_id))
      else
        let tokens1 := mapEraseKey existing.reconnect_token m.tokens
        let session : Session := ⟨player_id, .connected, token⟩
        ({ m with tokens := mapInsert token player_id tokens1,
                  sessions := mapInsert player_id session m.sessions },
         .ok session)
  | none =>
      let session : Session := ⟨player_id, .connected, token⟩
      ({ m with tokens := mapInsert token player_id m.tokens,
                sessions := mapInsert player_id session m.sessions },
       .ok session)

/-- Rust `SessionManager::disconnect` at time `now`: transition to
`Disconnected { since: now }`, token preserved. -/
def SessionManager.disconnect (m : SessionManager) (player_id : PlayerId)
    (now : Nat) : SessionManager × Except SessionError Unit :=
  match mapFind player_id m.sessions with
  | none => (m, .error (.notFound player_id))
  | some s =>
      ({ m with sessions :=
          mapInsert player_id { s with state := .disconnected now } m.sessions },
       .ok ())

/-- Rust `SessionManager::reconnect` at time `now`.  Token lookup, then the
state machine of the session: `Disconnected` past grace expires and fails,
within grace reconnects; `Connected` and `Expired` fail. -/
def SessionManager.reconnect (m : SessionManager) (token : String)
    (now : Nat) : SessionManager × Except SessionError Session :=
  match mapFind token m.tokens with
  | none => (m, .error .invalidToken)
  | some player_id =>
      match mapFind player_id m.sessions with
      | none => (m, .error .invalidToken)
      | some s =>
          match s.state with
          | .disconnected since =>
              if now - since > m.grace then
                ({ m with sessions :=
                    mapInsert player_id { s with state := .expired } m.sessions },
                 .error (.sessionExpired player_id))
              else
                let s2 := { s with state := SessionState.connected }
                ({ m with sessions := mapInsert player_id s2 m.sessions },
                 .ok s2)
          | .connected => (m, .error (.alreadyConnected player_id))
          | .expired => (m, .error (.sessionExpired player_id))

/-- Whether a session should be expired by the sweep at time `now`. -/
def staleAt (grace now : Nat) (s : Session) : Bool :=
  match s.state with
  | .disconnected since => decide (now - since > grace)
  | _ => false

/-- Rust `SessionManager::expire_stale` at time `now`: every `Disconnected`
session past grace becomes `Expired`; returns the expired player ids. -/
def SessionManager.expire_stale (m : SessionManager) (now : Nat) :
    SessionManager × List PlayerId :=
  ({ m with sessions := m.sessions.map (fun ps =>
      if staleAt m.grace now ps.2 then
        (ps.1, { ps.2 with state := SessionState.expired })
      else ps) },
   m.sessions.filterMap (fun ps =>
      if staleAt m.grace now ps.2 then some ps.2.player_id else none))

/-- Rust `SessionManager::cleanup_expired`: retain non-`Expired` sessions,
removing each dropped session's reconnect token from the token index. -/
def SessionManager.cleanup_expired (m : SessionManager) : SessionManager :=
  let expiredTokens := m.sessions.filterMap (fun ps =>
    if ps.2.state = SessionState.expired then some ps.2.reconnect_token
    else none)
  { m with
    sessions := m.sessions.filter
      (fun ps => decide (ps.2.state ≠ SessionState.expired)),
    tokens := m.tokens.filter
      (fun tp => decide (tp.1 ∉ expiredTokens)) }

/-- Rust `SessionManager::get`. -/
def SessionManager.get (m : SessionManager) (player_id : PlayerId) :
    Option Session :=
  mapFind player_id m.sessions

-- =========================================================================
-- Room layer (crates/arcforge-room)
-- =========================================================================

/-- Errors of the room layer (`enum RoomError`). -/
inductive RoomError where
  | notFound (r : RoomId)
  | roomFull (r : RoomId)
  | alreadyInRoom (p : PlayerId) (r : RoomId)
  | notInRoom (p : PlayerId) (r : RoomId)
  | invalidState (msg : String)
  | unavailable (r : RoomId)
deriving DecidableEq

/-- Room configuration (`struct RoomConfig`); `reconnect_grace` is a
duration in abstract time units. -/
structure RoomConfig where
  min_players : Nat
  max_players : Nat
  tick_rate : Nat
  reconnect_grace : Nat
  allow_spectators : Bool
  max_spectators : Nat
deriving DecidableEq

/-- Rust `RoomConfig::default()`: 2–8 players, event-driven, 30 s grace. -/
def RoomConfig.default : RoomConfig := ⟨2, 8, 0, 30, false, 0⟩

/-- Lifecycle state of a room (`enum RoomState`). -/
inductive RoomState where
  | waitingForPlayers
  | starting
  | inProgress
  | finished
  | destroying
deriving DecidableEq

/-- Rust `RoomState::is_joinable`: only `WaitingForPlayers` accepts joins. -/
def RoomState.is_joinable : RoomState → Bool
  | .waitingForPlayers => true
  | _ => false

/-- Rust `RoomState::is_active`: a game is running in `Starting`/`InProgress`. -/
def RoomState.is_active : RoomState → Bool
  | .starting => true
  | .inProgress => true
  | _ => false

/-- Rust `RoomState::next`: the strictly linear successor of each state. -/
def RoomState.next : RoomState → Option RoomState
  | .waitingForPlayers => some .starting
  | .starting => some .inProgress
  | .inProgress => some .finished
  | .finished => some .destroying
  | .destroying => none

/-- Rust `RoomState::can_transition_to`. -/
def RoomState.can_transition_to (s target : RoomState) : Bool :=
  s.next = some target

/-- The `Display` impl of `RoomState` (used in error messages). -/
def RoomState.toDisplay : RoomState → String
  | .waitingForPlayers => "WaitingForPlayers"
  | .starting => "Starting"
  | .inProgress => "InProgress"
  | .finished => "Finished"
  | .destroying => "Destroying"

/-- The `GameLogic` trait: associated types plus the methods the room actor
invokes.  Methods taking `&mut State` in Rust return the updated state. -/
structure GameModel where
  State : Type
  Config : Type
  ClientMessage : Type
  ServerMessage : Type
  init : Config → List PlayerId → State
  handle_message : State → PlayerId → ClientMessage →
    State × List (Recipient × ServerMessage)
  is_finished : State → Bool
  validate_message : State → PlayerId → ClientMessage → Except String Unit
  on_player_disconnect : State → PlayerId →
    State × List (Recipient × ServerMessage)

/-- Outbound message from the room actor to one player's handler
(`enum RoomOutbound`). -/
inductive RoomOutbound (G : GameModel) where
  | state (s : G.State)
  | message (m : G.ServerMessage)

/-- Room metadata snapshot (`struct RoomInfo`). -/
structure RoomInfo where
  room_id : RoomId
  state : RoomState
  player_count : Nat
  max_players : Nat
deriving DecidableEq

/-- The room actor's owned state (`struct RoomActor`).  `players` models the
`HashSet<PlayerId>` as a duplicate-free list; `senders` models the key set
of the `HashMap<PlayerId, PlayerSender>` (the channels themselves are
opaque). -/
structure RoomActor (G : GameModel) where
  room_id : RoomId
  state : RoomState
  config : RoomConfig
  players : List PlayerId
  senders : List PlayerId
  game_state : Option G.State
  game_config : G.Config

/-- Rust `RoomActor::send_to`: emits to the player iff a sender is registered,
else the message is silently dropped. -/
def RoomActor.sendTo {G : GameModel} (a : RoomActor G) (p : PlayerId)
    (msg : RoomOutbound G) : List (PlayerId × RoomOutbound G) :=
  if a.senders.contains p then [(p, msg)] else []

/-- Sends one message to each player of a list via `send_to`. -/
def RoomActor.sendEach {G : GameModel} (a : RoomActor G) :
    List PlayerId → RoomOutbound G → List (PlayerId × RoomOutbound G)
  | [], _ => []
  | p :: ps, msg => a.sendTo p msg ++ a.sendEach ps msg

/-- Rust `RoomActor::dispatch`: fan-out of `(Recipient, ServerMessage)` pairs. -/
def RoomActor.dispatch {G : GameModel} (a : RoomActor G) :
    List (Recipient × G.ServerMessage) → List (PlayerId × RoomOutbound G)
  | [] => []
  | (r, m) :: rest =>
      (match r with
       | .all => a.sendEach a.players (.message m)
       | .player p => a.sendTo p (.message m)
       | .allExcept excluded =>
           a.sendEach (a.players.filter (fun p => decide (p ≠ excluded)))
             (.message m)) ++ a.dispatch rest

/-- Rust `RoomActor::transition_to_starting`: set `Starting`, create the game
state via `init`, set `InProgress`, broadcast the initial state snapshot to
all players.  Besides the final actor and the emitted sends, the list of
successive assignments to `self.state` is returned so the transition path
is visible. -/
def RoomActor.transition_to_starting {G : GameModel} (a : RoomActor G) :
    RoomActor G × List (PlayerId × RoomOutbound G) × List RoomState :=
  let a1 := { a with state := RoomState.starting }
  let players := a1.players
  let a2 := { a1 with game_state := some (G.init a1.game_config players),
                      state := RoomState.inProgress }
  let sends :=
    match a2.game_state with
    | some gs => a2.sendEach a2.players (.state gs)
    | none => []
  (a2, sends, [RoomState.starting, RoomState.inProgress])

/-- Rust `RoomActor::handle_join`: reject when not joinable (`InvalidState`),
when already a member (`AlreadyInRoom`), or when full (`RoomFull`);
otherwise insert the player and its sender and auto-start once
`min_players` is reached. -/
def RoomActor.handle_join {G : GameModel} (a : RoomActor G) (p : PlayerId) :
    RoomActor G × Except RoomError Unit ×
      List (PlayerId × RoomOutbound G) × List RoomState :=
  if ¬ a.state.is_joinable then
    (a, .error (.invalidState ("cannot join room in state " ++
        a.state.toDisplay)), [], [])
  else if a.players.contains p then
    (a, .error (.alreadyInRoom p a.room_id), [], [])
  else if a.players.length ≥ a.config.max_players then
    (a, .error (.roomFull a.room_id), [], [])
  else
    let a1 := { a with
      players := a.players ++ [p],
      senders := if a.senders.contains p then a.senders else a.senders ++ [p] }
    if a1.players.length ≥ a1.config.min_players then
      let (a2, sends, slog) := a1.transition_to_starting
      (a2, .ok (), sends, slog)
    else
      (a1, .ok (), [], [])

/-- Rust `RoomActor::handle_leave`: remove the player and its sender; if the
room is active, run `on_player_disconnect` and dispatch its messages. -/
def RoomActor.handle_leave {G : GameModel} (a : RoomActor G) (p : PlayerId) :
    RoomActor G × Except RoomError Unit × List (PlayerId × RoomOutbound G) :=
  if ¬ a.players.contains p then
    (a, .error (.notInRoom p a.room_id), [])
  else
    let a1 := { a with
      players := a.players.filter (fun q => decide (q ≠ p)),
      senders := a.senders.filter (fun q => decide (q ≠ p)) }
    if a1.state.is_active then
      match a1.game_state with
      | some gs =>
          let (gs2, msgs) := G.on_player_disconnect gs p
          let a2 := { a1 with game_state := some gs2 }
          (a2, .ok (), a2.dispatch msgs)
      | none => (a1, .ok (), [])
    else
      (a1, .ok (), [])

/-- Rust `RoomActor::handle_message`: drop messages from non-members and when no
game is running; validate, run the game's handler, dispatch its messages,
and transition to `Finished` when `is_finished` reports the game over. -/
def RoomActor.handle_message {G : GameModel} (a : RoomActor G)
    (sender : PlayerId) (msg : G.ClientMessage) :
    RoomActor G × List (PlayerId × RoomOutbound G) :=
  if ¬ a.players.contains sender then (a, [])
  else
    match a.game_state with
    | none => (a, [])
    | some gs =>
        match G.validate_message gs sender msg with
        | .error _ => (a, [])
        | .ok _ =>
            let (gs2, msgs) := G.handle_message gs sender msg
            let finished := G.is_finished gs2
            let a1 := { a with game_state := some gs2 }
            let out := a1.dispatch msgs
            let a2 := if finished then { a1 with state := RoomState.finished }
                      else a1
            (a2, out)

/-- Rust `RoomActor::info`. -/
def RoomActor.info {G : GameModel} (a : RoomActor G) : RoomInfo :=
  ⟨a.room_id, a.state, a.players.length, a.config.max_players⟩

/-- Commands of the room actor's inbox (`enum RoomCommand`; reply channels
are implicit in the step results). -/
inductive RoomCmd (G : GameModel) where
  | join (p : PlayerId)
  | leave (p : PlayerId)
  | message (sender : PlayerId) (msg : G.ClientMessage)
  | getState
  | shutdown

/-- One iteration of `RoomActor::run`: process a command; `Shutdown` sets
`Destroying` and stops the loop (second component `true`). -/
def RoomActor.step {G : GameModel} (a : RoomActor G) :
    RoomCmd G → RoomActor G × Bool
  | .join p => ((a.handle_join p).1, false)
  | .leave p => ((a.handle_leave p).1, false)
  | .message s m => ((a.handle_message s m).1, false)
  | .getState => (a, false)
  | .shutdown => ({ a with state := RoomState.destroying }, true)

/-- Runs the actor loop over a command list, stopping at `Shutdown`. -/
def RoomActor.runCmds {G : GameModel} (a : RoomActor G) :
    List (RoomCmd G) → RoomActor G
  | [] => a
  | c :: cs =>
      let r := a.step c
      if r.2 then r.1 else r.1.runCmds cs

/-- The actor state `spawn_room` starts from: `WaitingForPlayers`, no
players, no senders, no game state. -/
def RoomActor.initial (G : GameModel) (room_id : RoomId) (config : RoomConfig)
    (game_config : G.Config) : RoomActor G :=
  ⟨room_id, RoomState.waitingForPlayers, config, [], [], none, game_config⟩

/-- A room-actor state is reachable when some command sequence leads the
spawned actor to it. -/
def RoomActor.Reachable {G : GameModel} (a : RoomActor G) : Prop :=
  ∃ room_id config game_config cmds,
    (RoomActor.initial G room_id config game_config).runCmds cmds = a

-- =========================================================================
-- Tick scheduler (crates/arcforge-tick/src/lib.rs)
-- =========================================================================

/-- Overrun policy (`enum TickPolicy`). -/
inductive TickPolicy where
  | skip
  | catchUp (max_catchup : Nat)
  | drop
deriving DecidableEq

/-- Per-tick result (`struct TickInfo`); durations in nanoseconds. -/
structure TickInfo where
  tick : Nat
  dt : Nat
  overrun : Bool
  ticks_skipped : Nat
deriving DecidableEq

/-- The scheduler state relevant to `wait_for_tick` while ticking
(`tick_rate_hz > 0`, not paused): the policy, the fixed tick duration in
nanoseconds (`config.tick_duration()`), the tick counter, and the pending
deadline, all on a `Nat` nanosecond clock. -/
structure TickSchedState where
  policy : TickPolicy
  tick_duration : Nat
  tick_count : Nat
  next_tick : Nat
deriving DecidableEq

/-- The resolution of `TickScheduler::wait_for_tick` at instant `now`
(`now` is taken after `sleep_until(next_tick)`, so `now ≥ next_tick`;
`saturating_duration_since` is `Nat` subtraction).  Returns the updated
scheduler state and the `TickInfo` handed to the caller. -/
def tickFire (s : TickSchedState) (now : Nat) : TickSchedState × TickInfo :=
  let next := s.next_tick
  let tick_dur := s.tick_duration
  let count := s.tick_count + 1
  let late_by := now - next
  let overrun := decide (late_by > tick_dur / 10)
  match s.policy with
  | .skip =>
      let ticks_skipped := if overrun then late_by / tick_dur else 0
      ({ s with tick_count := count, next_tick := now + tick_dur },
       ⟨count, tick_dur, overrun, ticks_skipped⟩)
  | .catchUp max_catchup =>
      if overrun then
        let behind := late_by / tick_dur
        let ticks_skipped := behind - max_catchup
        let next2 := if behind ≤ max_catchup then next + tick_dur
                     else now + tick_dur
        ({ s with tick_count := count, next_tick := next2 },
         ⟨count, tick_dur, overrun, ticks_skipped⟩)
      else
        ({ s with tick_count := count, next_tick := next + tick_dur },
         ⟨count, tick_dur, overrun, 0⟩)
  | .drop =>
      ({ s with tick_count := count, next_tick := next + tick_dur },
       ⟨count, tick_dur, overrun, 0⟩)

-- =========================================================================
-- Connection handler (crates/arcforge/src/handler.rs)
-- =========================================================================

/-- Rust `PROTOCOL_VERSION = 1`. -/
def protocolVersion : Nat := 1

/-- The `Display` strings of `RoomError` (its `thiserror` attributes),
with `PlayerId`/`RoomId` displayed as `P-{id}` / `R-{id}`. -/
def RoomError.toMessage : RoomError → String
  | .notFound r => "room R-" ++ toString r ++ " not found"
  | .roomFull r => "room R-" ++ toString r ++ " is full"
  | .alreadyInRoom p r =>
      "player P-" ++ toString p ++ " already in room R-" ++ toString r
  | .notInRoom p r =>
      "player P-" ++ toString p ++ " not in room R-" ++ toString r
  | .invalidState msg => "invalid room state for this operation: " ++ msg
  | .unavailable r => "room R-" ++ toString r ++ " is unavailable"

/-- The payload `handle_system_message` sends back for a
`System(JoinRoom { room_id })` request, given the result of
`rooms.join_room`: on success `RoomJoined` with `session_id:
String::new()`, on failure `Error { code: 404 }` with the error's
display string. -/
def handleJoinRoomMsg (room_id : RoomId)
    (join_result : Except RoomError Unit) : SystemMessage :=
  match join_result with
  | .ok _ => .roomJoined room_id ""
  | .error e => .error 404 e.toMessage

/-- Observable actions of the connection-setup phase, in order. -/
inductive HandshakeEvent where
  | sentError (code : Nat)
  | sentAck (player_id : PlayerId)
  | sessionCreate (player_id : PlayerId) (ok : Bool)
deriving DecidableEq

/-- The connection-setup phase: `perform_handshake` (receive the first
envelope's payload, require `Handshake`, check the protocol version,
authenticate `token.as_deref().unwrap_or("")`, send `HandshakeAck`)
followed by `handle_connection`'s `sessions.create(player_id)` call.
`auth` models `authenticator.authenticate`; `createResult` models what the
session registry's `create` returns for a player.  The result is the
ordered list of observable events plus `some player_id` when the handler
proceeds to the main loop (`none` models an error return, which closes the
connection). -/
def connectionSetup (first : Payload)
    (auth : String → Except SessionError PlayerId)
    (createResult : PlayerId → Except SessionError Unit) :
    List HandshakeEvent × Option PlayerId :=
  match first with
  | .system (.handshake version token) =>
      if version ≠ protocolVersion then ([.sentError 400], none)
      else
        match auth (token.getD "") with
        | .error _ => ([.sentError 401], none)
        | .ok player_id =>
            match createResult player_id with
            | .ok _ => ([.sentAck player_id, .sessionCreate player_id true],
                        some player_id)
            | .error _ =>
                ([.sentAck player_id, .sessionCreate player_id false], none)
  | _ => ([.sentError 400], none)

-- =========================================================================
-- Auxiliary predicates and instances used by the theorems
-- =========================================================================

/-- The synchronization invariant of the two session maps (spec §4.2):
duplicate-free keys, every session indexed under its own token, and every
token pointing back at a session carrying it. -/
def SessionManager.WF (m : SessionManager) : Prop :=
  (m.sessions.map Prod.fst).Nodup ∧
  (m.tokens.map Prod.fst).Nodup ∧
  (∀ ps ∈ m.sessions, ps.2.player_id = ps.1 ∧
    mapFind ps.2.reconnect_token m.tokens = some ps.1) ∧
  (∀ tp ∈ m.tokens,
    (mapFind tp.2 m.sessions).map Session.reconnect_token = some tp.1)

instance (m : SessionManager) : Decidable m.WF := by
  unfold SessionManager.WF
  infer_instance

/-- Structural invariant of the room actor maintained by every command:
duplicate-free membership, capacity bound, the sender map keyed exactly by
the members, and (outside the terminal `Destroying` state) a game state
present exactly when the room has started. -/
def RoomActor.Inv {G : GameModel} (a : RoomActor G) : Prop :=
  a.players.Nodup ∧
  a.players.length ≤ a.config.max_players ∧
  (∀ p, p ∈ a.senders ↔ p ∈ a.players) ∧
  (a.state ≠ RoomState.destroying →
    (a.game_state.isSome = true ↔
      (a.state = RoomState.starting ∨ a.state = RoomState.inProgress ∨
       a.state = RoomState.finished)))

/-- A trivial `GameLogic` instance (unit state, no messages) used to
instantiate the generic room theorems on concrete inputs. -/
def UnitGame : GameModel where
  State := Unit
  Config := Unit
  ClientMessage := Unit
  ServerMessage := Unit
  init := fun _ _ => ()
  handle_message := fun s _ _ => (s, [])
  is_finished := fun _ => false
  validate_message := fun _ _ _ => .ok ()
  on_player_disconnect := fun s _ => (s, [])

/-- Concrete registry fixture: grace 0, players 1 (token `"aa"`) and 2
(token `"bb"`) created, player 1 disconnected at time 0. -/
def sessionFixture : SessionManager :=
  ((((SessionManager.new 0).create 1 "aa").1.create 2 "bb").1.disconnect
    1 0).1

/-- The fixture after the expiry sweep at time 1 (player 1 now `Expired`). -/
def sessionFixtureExpired : SessionManager :=
  (sessionFixture.expire_stale 1).1


-- =========================================================================
-- Helper lemmas: association-list maps
-- =========================================================================

theorem mapFind_erase_ne {α β : Type} [DecidableEq α] (k k' : α)
    (m : List (α × β)) (h : k' ≠ k) :
    mapFind k (mapEraseKey k' m) = mapFind k m := by
  induction m with
  | nil => rfl
  | cons kv rest ih =>
      obtain ⟨k0, v0⟩ := kv
      by_cases h0 : k0 = k'
      · subst h0
        have hk : k0 ≠ k := fun hh => h (hh ▸ rfl)
        simp [mapEraseKey, mapFind, hk, ih]
      · by_cases h1 : k0 = k
        · subst h1
          simp [mapEraseKey, mapFind, h0, ih]
        · simp [mapEraseKey, mapFind, h0, h1, ih]

theorem mapFind_insert_self {α β : Type} [DecidableEq α] (k : α) (v : β)
    (m : List (α × β)) : mapFind k (mapInsert k v m) = some v := by
  simp [mapInsert, mapFind]

theorem mapFind_insert_ne {α β : Type} [DecidableEq α] (k k' : α) (v : β)
    (m : List (α × β)) (h : k' ≠ k) :
    mapFind k (mapInsert k' v m) = mapFind k m := by
  simp [mapInsert, mapFind, h, mapFind_erase_ne k k' m h]

theorem mapFind_some_mem {α β : Type} [DecidableEq α] {k : α} {v : β}
    {m : List (α × β)} (h : mapFind k m = some v) : (k, v) ∈ m := by
  induction m with
  | nil => simp [mapFind] at h
  | cons kv rest ih =>
      obtain ⟨k0, v0⟩ := kv
      by_cases h0 : k0 = k
      · subst h0
        simp [mapFind] at h
        subst h
        exact List.mem_cons_self _ _
      · simp only [mapFind, if_neg h0] at h
        exact List.mem_cons_of_mem _ (ih h)

theorem mem_nodup_mapFind {α β : Type} [DecidableEq α] {k : α} {v : β}
    {m : List (α × β)} (hm : (k, v) ∈ m) (hnd : (m.map Prod.fst).Nodup) :
    mapFind k m = some v := by
  induction m with
  | nil => simp at hm
  | cons kv rest ih =>
      obtain ⟨k0, v0⟩ := kv
      simp only [List.map_cons, List.nodup_cons] at hnd
      rcases List.mem_cons.mp hm with h | h
      · cases h
        simp [mapFind]
      · have hk0 : k0 ≠ k := by
          rintro rfl
          exact hnd.1 (List.mem_map.mpr ⟨(k0, v), h, rfl⟩)
        simp [mapFind, hk0, ih h hnd.2]

-- =========================================================================
-- C4: tick scheduler deadline policies
-- =========================================================================

/-- C4: On each resolution of `wait_for_tick` (with a positive tick
duration), writing `late_by = now - next_deadline` and `behind =
late_by / tick_duration`: the returned `TickInfo` has `dt` equal to the
fixed tick duration, the tick counter incremented, and `overrun` exactly
when `late_by > tick_duration / 10`; under `Skip` the next deadline becomes
`now + tick_duration` with `ticks_skipped = late_by / tick_duration`;
under `CatchUp { max_catchup }`, if `behind ≤ max_catchup` the next
deadline becomes `prev_deadline + tick_duration` (no skips), otherwise
`now + tick_duration` with `ticks_skipped = behind - max_catchup`; under
`Drop` the next deadline becomes `prev_deadline + tick_duration`. -/
theorem tick_wait_for_tick_policies (s : TickSchedState) (now : Nat)
    (hd : 0 < s.tick_duration) :
    ((tickFire s now).2.dt = s.tick_duration ∧
     (tickFire s now).2.tick = s.tick_count + 1 ∧
     ((tickFire s now).2.overrun = true ↔
        now - s.next_tick > s.tick_duration / 10)) ∧
    (s.policy = .skip →
      (tickFire s now).1.next_tick = now + s.tick_duration ∧
      (tickFire s now).2.ticks_skipped =
        (now - s.next_tick) / s.tick_duration) ∧
    (∀ mc, s.policy = .catchUp mc →
      (((now - s.next_tick) / s.tick_duration ≤ mc →
        (tickFire s now).1.next_tick = s.next_tick + s.tick_duration ∧
        (tickFire s now).2.ticks_skipped = 0) ∧
       (mc < (now - s.next_tick) / s.tick_duration →
        (tickFire s now).1.next_tick = now + s.tick_duration ∧
        (tickFire s now).2.ticks_skipped =
          (now - s.next_tick) / s.tick_duration - mc))) ∧
    (s.policy = .drop →
      (tickFire s now).1.next_tick = s.next_tick + s.tick_duration) := by
  have hlt : s.tick_duration / 10 < s.tick_duration :=
    Nat.div_lt_self hd (by norm_num)
  refine ⟨?_, ?_, ?_, ?_⟩
  · rcases hpol : s.policy with _ | mc | _ <;>
      by_cases hov : now - s.next_tick > s.tick_duration / 10 <;>
      simp [tickFire, hpol, hov]
  · intro hpol
    by_cases hov : now - s.next_tick > s.tick_duration / 10
    · simp [tickFire, hpol, hov]
    · have hz : (now - s.next_tick) / s.tick_duration = 0 :=
        Nat.div_eq_of_lt (lt_of_le_of_lt (not_lt.mp hov) hlt)
      simp [tickFire, hpol, hov, hz]
  · intro mc hpol
    by_cases hov : now - s.next_tick > s.tick_duration / 10
    · by_cases hbc : (now - s.next_tick) / s.tick_duration ≤ mc
      · refine ⟨fun _ => ?_, fun hmc => absurd hmc (not_lt.mpr hbc)⟩
        simp [tickFire, hpol, hov, hbc, Nat.sub_eq_zero_of_le hbc]
      · refine ⟨fun h => absurd h hbc, fun _ => ?_⟩
        simp [tickFire, hpol, hov, hbc]
    · have hz : (now - s.next_tick) / s.tick_duration = 0 :=
        Nat.div_eq_of_lt (lt_of_le_of_lt (not_lt.mp hov) hlt)
      refine ⟨fun _ => ?_, fun hmc => absurd (hz ▸ hmc) (Nat.not_lt_zero mc)⟩
      simp [tickFire, hpol, hov, hz]
  · intro hpol
    by_cases hov : now - s.next_tick > s.tick_duration / 10 <;>
      simp [tickFire, hpol, hov]

/-- Witness for C4: the spec's scenario (g) — a 20 Hz scheduler
(`tick_duration = 50 ms = 5·10⁷ ns`) waking 200 ms after its deadline
under `Skip` reports 4 skipped ticks, an overrun, and reschedules at
`now + 50 ms`. -/
theorem tick_wait_for_tick_policies_witness :
    0 < (50000000 : Nat) ∧
    (tickFire ⟨.skip, 50000000, 0, 100000000⟩ 300000000).1.next_tick =
      350000000 ∧
    (tickFire ⟨.skip, 50000000, 0, 100000000⟩ 300000000).2.ticks_skipped = 4 ∧
    (tickFire ⟨.skip, 50000000, 0, 100000000⟩ 300000000).2.overrun = true := by
  have h := tick_wait_for_tick_policies ⟨.skip, 50000000, 0, 100000000⟩
    300000000 (by norm_num)
  obtain ⟨⟨-, -, hov⟩, hskip, -, -⟩ := h
  obtain ⟨hnext, hskipped⟩ := hskip rfl
  exact ⟨by norm_num, hnext.trans (by decide), hskipped.trans (by decide),
    hov.mpr (by decide)⟩

-- =========================================================================
-- C10: a missing handshake token authenticates as the empty string
-- =========================================================================

/-- C10: In handshake Phase 1, a `Handshake` whose `token` field is `None`
is authenticated as the empty string: for every authenticator, every
protocol version and every session-registry behavior, the connection-setup
outcome of `Handshake { version, token: None }` equals that of
`Handshake { version, token: Some("") }` (the handler passes
`token.as_deref().unwrap_or("")` to `authenticate`). -/
theorem handshake_none_token_as_empty (version : Nat)
    (auth : String → Except SessionError PlayerId)
    (createResult : PlayerId → Except SessionError Unit) :
    connectionSetup (.system (.handshake version none)) auth createResult =
      connectionSetup (.system (.handshake version (some ""))) auth
        createResult := rfl

-- =========================================================================
-- C6: JoinRoom response (code bug: session_id is the empty string)
-- =========================================================================

/-- C6 evaluation at the failing input: on a successful
`System(JoinRoom { room_id: 1 })` the handler sends
`RoomJoined { room_id: 1, session_id: "" }` — the `session_id` is
`String::new()`, not the player's reconnection token (the code carries a
`TODO: populate with reconnection token`), so it differs from any nonempty
token such as the 32-hex-character tokens `create` issues.  On failure the
handler sends `Error { code: 404 }` with the room error's display text. -/
theorem join_room_response_empty_session_id :
    handleJoinRoomMsg 1 (.ok ()) = SystemMessage.roomJoined 1 "" ∧
    handleJoinRoomMsg 1 (.ok ()) ≠
      SystemMessage.roomJoined 1 "00112233445566778899aabbccddeeff" ∧
    handleJoinRoomMsg 1 (.error (.notFound 1)) =
      SystemMessage.error 404 "room R-1 not found" := by
  refine ⟨rfl, by decide, by decide⟩

-- =========================================================================
-- C8: HandshakeAck is sent before the session is reserved (corrected)
-- =========================================================================

/-- Counterexample to C8 as stated: with an authenticator accepting token
`"7"` as player 7 and a session registry replying `AlreadyConnected`, the
handler's observable trace is `[sentAck 7, sessionCreate 7 false]` — the
connection fails, but `HandshakeAck` has already been sent, and the
`create` call happens after it rather than before. -/
theorem handshake_create_after_ack_counterexample :
    (connectionSetup (.system (.handshake 1 (some "7")))
        (fun _ => .ok 7) (fun p => .error (.alreadyConnected p))).1 =
      [HandshakeEvent.sentAck 7, HandshakeEvent.sessionCreate 7 false] ∧
    HandshakeEvent.sentAck 7 ∈
      (connectionSetup (.system (.handshake 1 (some "7")))
        (fun _ => .ok 7) (fun p => .error (.alreadyConnected p))).1 ∧
    (connectionSetup (.system (.handshake 1 (some "7")))
        (fun _ => .ok 7) (fun p => .error (.alreadyConnected p))).2 =
      none := by
  refine ⟨rfl, ?_, rfl⟩
  simp [connectionSetup, protocolVersion]

/-- C8 amended: after successful authentication the handler first sends
`HandshakeAck { player_id, server_time }` and only then reserves the
session via the registry's `create`; if `create` returns
`AlreadyConnected` the handler fails and closes the connection, but
`HandshakeAck` has already been sent at that point. -/
theorem handshake_ack_sent_before_create (token : Option String)
    (auth : String → Except SessionError PlayerId)
    (createResult : PlayerId → Except SessionError Unit) (pid : PlayerId)
    (hauth : auth (token.getD "") = .ok pid) :
    (createResult pid = .ok () →
      (connectionSetup (.system (.handshake protocolVersion token)) auth
          createResult).1 =
        [HandshakeEvent.sentAck pid, HandshakeEvent.sessionCreate pid true] ∧
      (connectionSetup (.system (.handshake protocolVersion token)) auth
          createResult).2 = some pid) ∧
    (∀ e, createResult pid = .error e →
      (connectionSetup (.system (.handshake protocolVersion token)) auth
          createResult).1 =
        [HandshakeEvent.sentAck pid, HandshakeEvent.sessionCreate pid false] ∧
      (connectionSetup (.system (.handshake protocolVersion token)) auth
          createResult).2 = none) := by
  constructor
  · intro hc
    simp [connectionSetup, hauth, hc]
  · intro e hc
    simp [connectionSetup, hauth, hc]

/-- Witness for the amended C8 at a concrete input: a dev authenticator
mapping every token to player 3 and a registry that accepts the session. -/
theorem handshake_ack_sent_before_create_witness :
    ((fun _ => Except.ok 3 : String → Except SessionError PlayerId)
        ((none : Option String).getD "") = .ok 3) ∧
    ((fun _ => Except.ok () : PlayerId → Except SessionError Unit) 3 =
        .ok () →
      (connectionSetup (.system (.handshake protocolVersion none))
          (fun _ => .ok 3) (fun _ => .ok ())).1 =
        [HandshakeEvent.sentAck 3, HandshakeEvent.sessionCreate 3 true] ∧
      (connectionSetup (.system (.handshake protocolVersion none))
          (fun _ => .ok 3) (fun _ => .ok ())).2 = some 3) :=
  ⟨rfl, (handshake_ack_sent_before_create none (fun _ => .ok 3)
    (fun _ => .ok ()) 3 rfl).1⟩

-- =========================================================================
-- C1: reconnect state machine
-- =========================================================================

/-- C1: For every registry state and token, `reconnect(token, now)`:
returns `InvalidToken` when the token is not in the token index; on a
`Disconnected { since }` session with `now - since > grace` it marks the
session `Expired` and returns `SessionExpired`; within grace it returns the
session switched back to `Connected`, its `player_id` and
`reconnect_token` unchanged; on a `Connected` session it returns
`AlreadyConnected`; on an `Expired` session it returns `SessionExpired`.
Moreover, reconnecting within grace after `create` then `disconnect`
yields exactly the session `create` produced (same `player_id`, same
token) back in the `Connected` state. -/
theorem session_reconnect_cases (m : SessionManager) (token : String)
    (now : Nat) :
    (mapFind token m.tokens = none →
      (m.reconnect token now).2 = .error .invalidToken) ∧
    (∀ p s since, mapFind token m.tokens = some p →
      mapFind p m.sessions = some s →
      s.state = .disconnected since → m.grace < now - since →
      (m.reconnect token now).2 = .error (.sessionExpired p) ∧
      mapFind p (m.reconnect token now).1.sessions =
        some { s with state := SessionState.expired }) ∧
    (∀ p s since, mapFind token m.tokens = some p →
      mapFind p m.sessions = some s →
      s.state = .disconnected since → now - since ≤ m.grace →
      (m.reconnect token now).2 =
        .ok { s with state := SessionState.connected } ∧
      mapFind p (m.reconnect token now).1.sessions =
        some { s with state := SessionState.connected }) ∧
    (∀ p s, mapFind token m.tokens = some p →
      mapFind p m.sessions = some s → s.state = .connected →
      (m.reconnect token now).2 = .error (.alreadyConnected p)) ∧
    (∀ p s, mapFind token m.tokens = some p →
      mapFind p m.sessions = some s → s.state = .expired →
      (m.reconnect token now).2 = .error (.sessionExpired p)) ∧
    (∀ p tok s0 dnow rnow, (m.create p tok).2 = .ok s0 →
      rnow - dnow ≤ m.grace →
      s0 = ⟨p, .connected, tok⟩ ∧
      (((m.create p tok).1.disconnect p dnow).1.reconnect tok rnow).2 =
        .ok ⟨p, .connected, tok⟩) := by
  refine ⟨?_, ?_, ?_, ?_, ?_, ?_⟩
  · intro h
    simp [SessionManager.reconnect, h]
  · intro p s since ht hs hstate hgrace
    have hng : ¬ now - since ≤ m.grace := not_le.mpr hgrace
    constructor
    · simp [SessionManager.reconnect, ht, hs, hstate, hgrace]
    · simp [SessionManager.reconnect, ht, hs, hstate, hgrace,
        mapFind_insert_self]
  · intro p s since ht hs hstate hgrace
    have hng : ¬ m.grace < now - since := not_lt.mpr hgrace
    constructor
    · simp [SessionManager.reconnect, ht, hs, hstate, hng]
    · simp [SessionManager.reconnect, ht, hs, hstate, hng,
        mapFind_insert_self]
  · intro p s ht hs hstate
    simp [SessionManager.reconnect, ht, hs, hstate]
  · intro p s ht hs hstate
    simp [SessionManager.reconnect, ht, hs, hstate]
  · intro p tok s0 dnow rnow hcreate hgrace
    have hng : ¬ (m.grace < rnow - dnow) := not_lt.mpr hgrace
    rcases hs : mapFind p m.sessions with _ | existing
    · simp only [SessionManager.create, hs, Except.ok.injEq] at hcreate
      refine ⟨hcreate.symm, ?_⟩
      simp [SessionManager.create, hs, SessionManager.disconnect,
        SessionManager.reconnect, mapFind_insert_self, hng]
    · by_cases hc : existing.state = SessionState.connected
      · simp [SessionManager.create, hs, hc] at hcreate
      · simp only [SessionManager.create, hs, if_neg hc,
          Except.ok.injEq] at hcreate
        refine ⟨hcreate.symm, ?_⟩
        simp [SessionManager.create, hs, hc, SessionManager.disconnect,
          SessionManager.reconnect, mapFind_insert_self, hng]

/-- Witness for C1: on a registry with grace 5, an unknown token is
rejected as `InvalidToken`, and player 7 created with token `"aa"`, then
disconnected at time 0, reconnects at time 3 getting back the very
session `create` produced. -/
theorem session_reconnect_cases_witness :
    (mapFind "zz" (SessionManager.new 5).tokens = none ∧
      ((SessionManager.new 5).reconnect "zz" 0).2 =
        .error .invalidToken) ∧
    (((SessionManager.new 5).create 7 "aa").2 =
        .ok (⟨7, .connected, "aa"⟩ : Session) ∧
      ((((SessionManager.new 5).create 7 "aa").1.disconnect 7 0).1.reconnect
          "aa" 3).2 = .ok (⟨7, .connected, "aa"⟩ : Session)) := by
  refine ⟨⟨rfl, ?_⟩, ?_, ?_⟩
  · exact (session_reconnect_cases (SessionManager.new 5) "zz" 0).1 rfl
  · rfl
  · exact ((session_reconnect_cases (SessionManager.new 5) "aa" 3).2.2.2.2.2
      7 "aa" ⟨7, .connected, "aa"⟩ 0 3 rfl (by decide)).2

-- =========================================================================
-- Helper lemmas for expiry and cleanup
-- =========================================================================

theorem mapFind_map_entry {α β : Type} [DecidableEq α] (g : β → β) (k : α)
    (l : List (α × β)) :
    mapFind k (l.map (fun ps => (ps.1, g ps.2))) = (mapFind k l).map g := by
  induction l with
  | nil => rfl
  | cons kv rest ih =>
      obtain ⟨k0, v0⟩ := kv
      by_cases h : k0 = k <;> simp [mapFind, h, ih]

theorem mapFind_filter_none {α β : Type} [DecidableEq α] (f : α × β → Bool)
    {k : α} {l : List (α × β)} (h : mapFind k l = none) :
    mapFind k (l.filter f) = none := by
  induction l with
  | nil => rfl
  | cons kv rest ih =>
      obtain ⟨k0, v0⟩ := kv
      by_cases h0 : k0 = k
      · simp [mapFind, h0] at h
      · simp only [mapFind, if_neg h0] at h
        by_cases hf : f (k0, v0) <;> simp [List.filter_cons, hf, mapFind, h0, ih h]

theorem mapFind_filter_value {α β : Type} [DecidableEq α] (q : β → Bool)
    (k : α) (l : List (α × β)) (hnd : (l.map Prod.fst).Nodup) :
    mapFind k (l.filter (fun ps => q ps.2)) =
      match mapFind k l with
      | some v => if q v then some v else none
      | none => none := by
  induction l with
  | nil => rfl
  | cons kv rest ih =>
      obtain ⟨k0, v0⟩ := kv
      simp only [List.map_cons, List.nodup_cons] at hnd
      by_cases h0 : k0 = k
      · subst h0
        have hrest : mapFind k0 rest = none := by
          match hf : mapFind k0 rest with
          | none => rfl
          | some v =>
              exact absurd (List.mem_map.mpr ⟨(k0, v), mapFind_some_mem hf, rfl⟩)
                hnd.1
        by_cases hq : q v0
        · simp [List.filter_cons, hq, mapFind]
        · simp [List.filter_cons, hq, mapFind, mapFind_filter_none _ hrest]
      · by_cases hq : q v0 <;>
          simp [List.filter_cons, hq, mapFind, h0, ih hnd.2]

theorem mapFind_filterKeys_mem {α β : Type} [DecidableEq α] (ex : List α)
    {k : α} (l : List (α × β)) (h : k ∈ ex) :
    mapFind k (l.filter (fun tp => decide (tp.1 ∉ ex))) = none := by
  have hf : (fun tp : α × β => decide (tp.1 ∉ ex)) =
      (fun tp : α × β => !(decide (tp.1 ∈ ex))) := by
    funext tp
    simp
  rw [hf]
  induction l with
  | nil => rfl
  | cons kv rest ih =>
      obtain ⟨k0, v0⟩ := kv
      by_cases h0 : k0 = k
      · subst h0
        simp [List.filter_cons, h, ih]
      · by_cases hm : k0 ∈ ex <;>
          simp [List.filter_cons, hm, mapFind, h0, ih]

theorem mapFind_filterKeys_notMem {α β : Type} [DecidableEq α] (ex : List α)
    {k : α} (l : List (α × β)) (h : k ∉ ex) :
    mapFind k (l.filter (fun tp => decide (tp.1 ∉ ex))) = mapFind k l := by
  have hf : (fun tp : α × β => decide (tp.1 ∉ ex)) =
      (fun tp : α × β => !(decide (tp.1 ∈ ex))) := by
    funext tp
    simp
  rw [hf]
  induction l with
  | nil => rfl
  | cons kv rest ih =>
      obtain ⟨k0, v0⟩ := kv
      by_cases h0 : k0 = k
      · subst h0
        simp [List.filter_cons, h, mapFind, ih]
      · by_cases hm : k0 ∈ ex <;>
          simp [List.filter_cons, hm, mapFind, h0, ih]

theorem expire_stale_find (m : SessionManager) (now : Nat) (p : PlayerId) :
    mapFind p (m.expire_stale now).1.sessions =
      (mapFind p m.sessions).map (fun s =>
        if staleAt m.grace now s then { s with state := SessionState.expired }
        else s) := by
  have hfun : (fun ps : PlayerId × Session =>
      if staleAt m.grace now ps.2 then
        (ps.1, { ps.2 with state := SessionState.expired })
      else ps) =
      (fun ps : PlayerId × Session => (ps.1,
        if staleAt m.grace now ps.2 then
          { ps.2 with state := SessionState.expired }
        else ps.2)) := by
    funext ps
    by_cases h : staleAt m.grace now ps.2 <;> simp [h]
  simp only [SessionManager.expire_stale]
  rw [hfun]
  exact mapFind_map_entry (fun s => if staleAt m.grace now s then
    { s with state := SessionState.expired } else s) p m.sessions

-- =========================================================================
-- C9: expire_stale / cleanup_expired semantics
-- =========================================================================

/-- C9: `expire_stale` marks exactly the `Disconnected` sessions past grace
as `Expired` (pointwise) while leaving the token index untouched; such a
session still answers `reconnect(token)` with `SessionExpired(player_id)`
after the sweep; `cleanup_expired` removes exactly the `Expired` sessions,
removes their tokens (so `reconnect` then returns `InvalidToken`), and — on
a registry satisfying the map-synchronization invariant — keeps the tokens
of all non-`Expired` sessions. -/
theorem session_expire_and_cleanup (m : SessionManager) (now now2 : Nat) :
    (∀ p, mapFind p (m.expire_stale now).1.sessions =
      (mapFind p m.sessions).map (fun s =>
        if staleAt m.grace now s then { s with state := SessionState.expired }
        else s)) ∧
    ((m.expire_stale now).1.tokens = m.tokens) ∧
    (∀ token p s, mapFind token m.tokens = some p →
      mapFind p m.sessions = some s → staleAt m.grace now s = true →
      ((m.expire_stale now).1.reconnect token now2).2 =
        .error (.sessionExpired p)) ∧
    ((m.sessions.map Prod.fst).Nodup →
      ∀ p, mapFind p m.cleanup_expired.sessions =
        match mapFind p m.sessions with
        | some s => if s.state = SessionState.expired then none else some s
        | none => none) ∧
    (∀ token p s, mapFind token m.tokens = some p →
      mapFind p m.sessions = some s → s.state = SessionState.expired →
      s.reconnect_token = token →
      (m.cleanup_expired.reconnect token now2).2 = .error .invalidToken) ∧
    (m.WF → ∀ token p s, mapFind token m.tokens = some p →
      mapFind p m.sessions = some s → s.state ≠ SessionState.expired →
      mapFind token m.cleanup_expired.tokens = some p) := by
  refine ⟨expire_stale_find m now, rfl, ?_, ?_, ?_, ?_⟩
  · intro token p s ht hs hstale
    have ht2 : mapFind token (m.expire_stale now).1.tokens = some p := ht
    have hfind := expire_stale_find m now p
    rw [hs] at hfind
    simp only [hstale, if_true, Option.map_some'] at hfind
    simp [SessionManager.reconnect, ht2, hfind]
  · intro hnd p
    have := mapFind_filter_value
      (fun s => decide (s.state ≠ SessionState.expired)) p m.sessions hnd
    simp only [SessionManager.cleanup_expired]
    rw [this]
    match hf : mapFind p m.sessions with
    | none => rfl
    | some v =>
        by_cases hv : v.state = SessionState.expired <;> simp [hv]
  · intro token p s ht hs hexp htok
    have hmem : (p, s) ∈ m.sessions := mapFind_some_mem hs
    have hintoks : token ∈ m.sessions.filterMap (fun ps =>
        if ps.2.state = SessionState.expired then some ps.2.reconnect_token
        else none) := by
      exact List.mem_filterMap.mpr ⟨(p, s), hmem, by simp [hexp, htok]⟩
    have hnone : mapFind token m.cleanup_expired.tokens = none := by
      simp only [SessionManager.cleanup_expired]
      exact mapFind_filterKeys_mem _ m.tokens hintoks
    simp [SessionManager.reconnect, hnone]
  · intro hwf token p s ht hs hexp
    obtain ⟨hndS, hndT, hsess, htoks⟩ := hwf
    have hnotin : token ∉ m.sessions.filterMap (fun ps =>
        if ps.2.state = SessionState.expired then some ps.2.reconnect_token
        else none) := by
      intro hin
      obtain ⟨⟨q, s2⟩, hqmem, hqe⟩ := List.mem_filterMap.mp hin
      by_cases h2 : s2.state = SessionState.expired
      · simp only [h2, if_true, Option.some.injEq] at hqe
        have hq := (hsess (q, s2) hqmem).2
        rw [hqe, ht] at hq
        have hqp : p = q := Option.some.inj hq
        subst hqp
        have h52 := mem_nodup_mapFind hqmem hndS
        have hs2 : s2 = s := Option.some.inj (h52.symm.trans hs)
        exact hexp (hs2 ▸ h2)
      · simp [h2] at hqe
    simp only [SessionManager.cleanup_expired]
    rw [mapFind_filterKeys_notMem _ m.tokens hnotin]
    exact ht

/-- Witness for C9: with grace 0, player 1 (token `"aa"`) disconnected at
time 0 is expired by the sweep at time 1; reconnecting then yields
`SessionExpired(1)`; after `cleanup_expired` the same token yields
`InvalidToken`, while the still-connected player 2 keeps token `"bb"`. -/
theorem session_expire_and_cleanup_witness :
    ((sessionFixtureExpired.reconnect "aa" 1).2 =
      .error (.sessionExpired 1)) ∧
    ((sessionFixtureExpired.cleanup_expired.reconnect "aa" 1).2 =
      .error .invalidToken) ∧
    (mapFind "bb" sessionFixtureExpired.cleanup_expired.tokens = some 2) := by
  refine ⟨?_, ?_, ?_⟩
  · exact (session_expire_and_cleanup sessionFixture 1 1).2.2.1 "aa" 1
      ⟨1, .disconnected 0, "aa"⟩ rfl rfl (by decide)
  · exact (session_expire_and_cleanup sessionFixtureExpired 1 1).2.2.2.2.1
      "aa" 1 ⟨1, .expired, "aa"⟩ rfl rfl rfl rfl
  · exact (session_expire_and_cleanup sessionFixtureExpired 1 1).2.2.2.2.2
      (by decide) "bb" 2 ⟨2, .connected, "bb"⟩ rfl rfl (by decide)

-- =========================================================================
-- Helper lemmas: room actor invariant
-- =========================================================================

theorem roomInv_handle_join {G : GameModel} {a : RoomActor G} (h : a.Inv)
    (p : PlayerId) : (a.handle_join p).1.Inv := by
  obtain ⟨hnd, hlen, hsend, hgame⟩ := h
  by_cases h1 : a.state.is_joinable = true
  case neg =>
    simp only [RoomActor.handle_join, h1]
    simpa using ⟨hnd, hlen, hsend, hgame⟩
  by_cases h2 : p ∈ a.players
  case pos =>
    have hc2 : a.players.contains p = true := List.elem_iff.mpr h2
    simp only [RoomActor.handle_join, h1, hc2]
    simpa using ⟨hnd, hlen, hsend, hgame⟩
  have hc2 : a.players.contains p = false :=
    Bool.eq_false_iff.mpr (fun hh => h2 (List.elem_iff.mp hh))
  have hps : p ∉ a.senders := fun hm => h2 ((hsend p).mp hm)
  have hcs : a.senders.contains p = false :=
    Bool.eq_false_iff.mpr (fun hh => hps (List.elem_iff.mp hh))
  by_cases h3 : a.players.length ≥ a.config.max_players
  case pos =>
    simp only [RoomActor.handle_join, h1, hc2, h3]
    simpa using ⟨hnd, hlen, hsend, hgame⟩
  have hnd1 : (a.players ++ [p]).Nodup := by
    simp [List.nodup_append, hnd, h2]
  by_cases h4 : a.config.min_players ≤ a.players.length + 1
  case pos =>
    simp only [RoomActor.handle_join, h1, hc2, hcs, h3, if_false,
      Bool.false_eq_true, List.length_append, List.length_singleton, ge_iff_le,
      h4, if_true, RoomActor.transition_to_starting]
    refine ⟨hnd1, ?_, ?_, ?_⟩
    · simpa using Nat.succ_le_of_lt (not_le.mp h3)
    · intro q
      simp [hsend q]
    · intro _
      simp
  case neg =>
    simp only [RoomActor.handle_join, h1, hc2, hcs, h3, if_false,
      Bool.false_eq_true, List.length_append, List.length_singleton, ge_iff_le,
      h4, if_true]
    refine ⟨hnd1, ?_, ?_, ?_⟩
    · simpa using Nat.succ_le_of_lt (not_le.mp h3)
    · intro q
      simp [hsend q]
    · exact hgame

theorem roomInv_handle_leave {G : GameModel} {a : RoomActor G} (h : a.Inv)
    (p : PlayerId) : (a.handle_leave p).1.Inv := by
  obtain ⟨hnd, hlen, hsend, hgame⟩ := h
  by_cases h1 : p ∈ a.players
  case neg =>
    have hc : a.players.contains p = false :=
      Bool.eq_false_iff.mpr (fun hh => h1 (List.elem_iff.mp hh))
    simp only [RoomActor.handle_leave, hc]
    simpa using ⟨hnd, hlen, hsend, hgame⟩
  have hc : a.players.contains p = true := List.elem_iff.mpr h1
  have hnd1 : (a.players.filter (fun q => decide (q ≠ p))).Nodup :=
    hnd.filter _
  have hlen1 : (a.players.filter (fun q => decide (q ≠ p))).length ≤
      a.config.max_players :=
    le_trans (List.length_filter_le _ _) hlen
  have hsend1 : ∀ q, q ∈ a.senders.filter (fun q => decide (q ≠ p)) ↔
      q ∈ a.players.filter (fun q => decide (q ≠ p)) := by
    intro q
    simp [List.mem_filter, hsend q]
  by_cases h2 : a.state.is_active = true
  · rcases hg : a.game_state with _ | gs
    · simp only [RoomActor.handle_leave, hc, h2, hg, if_true]
      refine ⟨hnd1, hlen1, hsend1, fun hne => ?_⟩
      simpa [hg] using hgame hne
    · rcases hgp : G.on_player_disconnect gs p with ⟨gs2, msgs⟩
      simp only [RoomActor.handle_leave, hc, h2, hg, hgp, if_true]
      refine ⟨hnd1, hlen1, hsend1, fun hne => ?_⟩
      have hst := hgame hne
      rw [hg] at hst
      simp only [Option.isSome_some] at hst
      simpa using hst.mp (by trivial)
  · have hc2 : a.state.is_active = false := Bool.eq_false_iff.mpr h2
    simp only [RoomActor.handle_leave, hc, hc2]
    refine ⟨?_, ?_, ?_, ?_⟩
    · simpa using hnd1
    · simpa using hlen1
    · simpa using hsend1
    · simpa using hgame

theorem roomInv_handle_message {G : GameModel} {a : RoomActor G} (h : a.Inv)
    (sender : PlayerId) (msg : G.ClientMessage) :
    (a.handle_message sender msg).1.Inv := by
  obtain ⟨hnd, hlen, hsend, hgame⟩ := h
  by_cases h1 : sender ∈ a.players
  case neg =>
    have hc : a.players.contains sender = false :=
      Bool.eq_false_iff.mpr (fun hh => h1 (List.elem_iff.mp hh))
    simp only [RoomActor.handle_message, hc]
    simpa using ⟨hnd, hlen, hsend, hgame⟩
  have hc : a.players.contains sender = true := List.elem_iff.mpr h1
  rcases hg : a.game_state with _ | gs
  · simp only [RoomActor.handle_message, hc, hg]
    simpa using ⟨hnd, hlen, hsend, hgame⟩
  rcases hv : G.validate_message gs sender msg with e | u
  · simp only [RoomActor.handle_message, hc, hg, hv]
    simpa using ⟨hnd, hlen, hsend, hgame⟩
  rcases hh : G.handle_message gs sender msg with ⟨gs2, msgs⟩
  by_cases hf : G.is_finished gs2 = true
  · simp only [RoomActor.handle_message, hc, hg, hv, hh, hf, if_true]
    refine ⟨hnd, hlen, hsend, fun _ => ?_⟩
    simp
  · have hf2 : G.is_finished gs2 = false := Bool.eq_false_iff.mpr hf
    simp only [RoomActor.handle_message, hc, hg, hv, hh, hf2]
    refine ⟨?_, ?_, ?_, ?_⟩
    · simpa using hnd
    · simpa using hlen
    · simpa using hsend
    · intro hne
      simp only [Bool.false_eq_true, if_false] at hne ⊢
      have hst := hgame (by simpa using hne)
      rw [hg] at hst
      simp only [Option.isSome_some] at hst
      simpa using hst.mp (by trivial)

theorem roomInv_step {G : GameModel} {a : RoomActor G} (h : a.Inv)
    (c : RoomCmd G) : ((a.step c).1).Inv := by
  obtain ⟨hnd, hlen, hsend, hgame⟩ := h
  cases c with
  | join p => exact roomInv_handle_join ⟨hnd, hlen, hsend, hgame⟩ p
  | leave p => exact roomInv_handle_leave ⟨hnd, hlen, hsend, hgame⟩ p
  | message s m => exact roomInv_handle_message ⟨hnd, hlen, hsend, hgame⟩ s m
  | getState => exact ⟨hnd, hlen, hsend, hgame⟩
  | shutdown => exact ⟨hnd, hlen, hsend, fun hne => absurd rfl hne⟩

theorem roomInv_runCmds {G : GameModel} {a : RoomActor G} (h : a.Inv)
    (cmds : List (RoomCmd G)) : (a.runCmds cmds).Inv := by
  induction cmds generalizing a with
  | nil => exact h
  | cons c cs ih =>
      rcases hr : (a.step c) with ⟨a1, stop⟩
      have h1 : a1.Inv := by
        have := roomInv_step h c
        rw [hr] at this
        exact this
      cases stop <;> simp [RoomActor.runCmds, hr] <;> [exact ih h1; exact h1]

theorem roomInv_initial {G : GameModel} (room_id : RoomId)
    (config : RoomConfig) (game_config : G.Config) :
    (RoomActor.initial G room_id config game_config).Inv := by
  refine ⟨List.nodup_nil, Nat.zero_le _, fun q => Iff.rfl, fun _ => ?_⟩
  simp [RoomActor.initial]

theorem roomInv_reachable {G : GameModel} {a : RoomActor G}
    (h : a.Reachable) : a.Inv := by
  obtain ⟨room_id, config, game_config, cmds, rfl⟩ := h
  exact roomInv_runCmds (roomInv_initial room_id config game_config) cmds

-- =========================================================================
-- C2: join guard conditions and the capacity invariant
-- =========================================================================

/-- C2: A `Join { player_id }` command succeeds exactly when the room state
is joinable (`WaitingForPlayers`), the player is not already a member, and
`|players| < max_players`; joining a room past `WaitingForPlayers` fails
with `InvalidState`; and in every reachable room-actor state
`|players| ≤ max_players`. -/
theorem room_join_guard_and_capacity {G : GameModel} :
    (∀ (a : RoomActor G) (p : PlayerId),
      (a.handle_join p).2.1 = .ok () ↔
        (a.state.is_joinable = true ∧ p ∉ a.players ∧
         a.players.length < a.config.max_players)) ∧
    (∀ (a : RoomActor G) (p : PlayerId),
      a.state ≠ RoomState.waitingForPlayers →
      (a.handle_join p).2.1 = .error (.invalidState
        ("cannot join room in state " ++ a.state.toDisplay))) ∧
    (∀ a : RoomActor G, a.Reachable →
      a.players.length ≤ a.config.max_players) := by
  refine ⟨?_, ?_, ?_⟩
  · intro a p
    by_cases h1 : a.state.is_joinable = true
    case neg =>
      have h1f : a.state.is_joinable = false := Bool.eq_false_iff.mpr h1
      simp [RoomActor.handle_join, h1f, h1]
    by_cases h2 : p ∈ a.players
    case pos =>
      have hc : a.players.contains p = true := List.elem_iff.mpr h2
      simp [RoomActor.handle_join, h1, hc, h2]
    have hc2 : a.players.contains p = false :=
      Bool.eq_false_iff.mpr (fun hh => h2 (List.elem_iff.mp hh))
    by_cases h3 : a.players.length < a.config.max_players
    case neg =>
      have h3g : a.players.length ≥ a.config.max_players := not_lt.mp h3
      simp [RoomActor.handle_join, h1, hc2, h2, h3g, h3]
    have h3n : ¬ (a.players.length ≥ a.config.max_players) := not_le.mpr h3
    by_cases h4 : a.config.min_players ≤ a.players.length + 1
    · simp [RoomActor.handle_join, h1, hc2, h2, h3, h3n, h4,
        RoomActor.transition_to_starting]
    · simp [RoomActor.handle_join, h1, hc2, h2, h3, h3n, h4]
  · intro a p hne
    have h1 : a.state.is_joinable = false := by
      cases hst : a.state <;> simp_all [RoomState.is_joinable]
    simp [RoomActor.handle_join, h1]
  · intro a h
    exact (roomInv_reachable h).2.1

/-- Witness for C2 on concrete rooms with `min_players = max_players = 2`:
a first join into a fresh room succeeds; joining a `Finished` room fails
with `InvalidState`; and the membership of the reachable room obtained by
one successful join respects the capacity bound. -/
theorem room_join_guard_and_capacity_witness :
    ((RoomActor.initial UnitGame 0 ⟨2, 2, 0, 30, false, 0⟩ ()).handle_join
        1).2.1 = .ok () ∧
    (((⟨0, RoomState.finished, ⟨2, 2, 0, 30, false, 0⟩, [], [], none, ()⟩ :
        RoomActor UnitGame).handle_join 1).2.1 =
      .error (.invalidState
        ("cannot join room in state " ++ RoomState.finished.toDisplay))) ∧
    ((RoomActor.initial UnitGame 0 ⟨2, 2, 0, 30, false, 0⟩ ()).runCmds
        [RoomCmd.join 1]).players.length ≤
      ((RoomActor.initial UnitGame 0 ⟨2, 2, 0, 30, false, 0⟩ ()).runCmds
        [RoomCmd.join 1]).config.max_players := by
  refine ⟨?_, ?_, ?_⟩
  · exact (room_join_guard_and_capacity.1 _ 1).mpr
      ⟨rfl, by simp [RoomActor.initial], by decide⟩
  · exact room_join_guard_and_capacity.2.1 _ 1 (by decide)
  · exact room_join_guard_and_capacity.2.2 _
      ⟨0, ⟨2, 2, 0, 30, false, 0⟩, (), [RoomCmd.join 1], rfl⟩

-- =========================================================================
-- Helper lemmas for the auto-start broadcast
-- =========================================================================

theorem sendEach_all_present {G : GameModel} (a : RoomActor G)
    (ps : List PlayerId) (msg : RoomOutbound G)
    (h : ∀ q ∈ ps, q ∈ a.senders) :
    a.sendEach ps msg = ps.map (fun q => (q, msg)) := by
  induction ps with
  | nil => rfl
  | cons q qs ih =>
      simp [RoomActor.sendEach, RoomActor.sendTo, h q (List.mem_cons_self q qs),
        ih (fun r hr => h r (List.mem_cons_of_mem _ hr))]

theorem countP_fst_map_zero {β : Type} (q : PlayerId) (msg : β)
    (ps : List PlayerId) (h : q ∉ ps) :
    (ps.map (fun r => (r, msg))).countP (fun e => decide (e.1 = q)) = 0 := by
  induction ps with
  | nil => rfl
  | cons r rs ih =>
      have hr : r ≠ q := fun hh => h (hh ▸ List.mem_cons_self r rs)
      simp only [List.map_cons, List.countP_cons, decide_eq_true_eq]
      rw [ih (fun hh => h (List.mem_cons_of_mem _ hh))]
      simp [hr]

theorem countP_fst_map_one {β : Type} (q : PlayerId) (msg : β)
    (ps : List PlayerId) (hnd : ps.Nodup) (hq : q ∈ ps) :
    (ps.map (fun r => (r, msg))).countP (fun e => decide (e.1 = q)) = 1 := by
  induction ps with
  | nil => simp at hq
  | cons r rs ih =>
      simp only [List.nodup_cons] at hnd
      rcases List.mem_cons.mp hq with h | h
      · subst h
        simp only [List.map_cons, List.countP_cons, decide_eq_true_eq]
        rw [countP_fst_map_zero q msg rs hnd.1]
        simp
      · have hr : r ≠ q := fun hh => hnd.1 (hh ▸ h)
        simp only [List.map_cons, List.countP_cons, decide_eq_true_eq]
        rw [ih hnd.2 h]
        simp [hr]

-- =========================================================================
-- C3: auto-start on reaching min_players
-- =========================================================================

/-- C3: When a successful `Join` brings the membership to
`|players| ≥ min_players` in a reachable room, the room passes through the
state assignments `Starting` then `InProgress` (each step a legal
`can_transition_to` transition), the game state becomes exactly one
invocation of the game's `init` on the new membership, exactly one
`RoomState` snapshot is sent to each current member, and `GetInfo`
afterwards reports `state = InProgress`. -/
theorem room_auto_start {G : GameModel} (a : RoomActor G) (p : PlayerId)
    (hre : a.Reachable) (hstate : a.state = RoomState.waitingForPlayers)
    (hmem : p ∉ a.players)
    (hcap : a.players.length < a.config.max_players)
    (hmin : a.config.min_players ≤ a.players.length + 1) :
    (a.handle_join p).2.1 = .ok () ∧
    (a.handle_join p).1.state = RoomState.inProgress ∧
    (a.handle_join p).2.2.2 = [RoomState.starting, RoomState.inProgress] ∧
    RoomState.waitingForPlayers.can_transition_to RoomState.starting = true ∧
    RoomState.starting.can_transition_to RoomState.inProgress = true ∧
    (a.handle_join p).1.game_state =
      some (G.init a.game_config (a.players ++ [p])) ∧
    (a.handle_join p).2.2.1 = (a.players ++ [p]).map
      (fun q => (q, RoomOutbound.state (G.init a.game_config
        (a.players ++ [p])))) ∧
    (∀ q ∈ a.players ++ [p],
      ((a.handle_join p).2.2.1.countP (fun e => decide (e.1 = q))) = 1) ∧
    (a.handle_join p).1.info.state = RoomState.inProgress := by
  obtain ⟨hnd, hlen, hsend, hgame⟩ := roomInv_reachable hre
  have h1 : a.state.is_joinable = true := by rw [hstate]; rfl
  have hc2 : a.players.contains p = false :=
    Bool.eq_false_iff.mpr (fun hh => hmem (List.elem_iff.mp hh))
  have hps : p ∉ a.senders := fun hm => hmem ((hsend p).mp hm)
  have hcs : a.senders.contains p = false :=
    Bool.eq_false_iff.mpr (fun hh => hps (List.elem_iff.mp hh))
  have h3n : ¬ (a.players.length ≥ a.config.max_players) := not_le.mpr hcap
  have hsends : (a.handle_join p).2.2.1 = (a.players ++ [p]).map
      (fun q => (q, RoomOutbound.state (G.init a.game_config
        (a.players ++ [p])))) := by
    simp only [RoomActor.handle_join, h1, hc2, hcs, h3n, if_false, if_true,
      Bool.false_eq_true, not_true, not_false_iff, List.length_append,
      List.length_singleton, ge_iff_le, hmin, ite_true, ite_false,
      RoomActor.transition_to_starting]
    rw [sendEach_all_present]
    intro q hq
    rcases List.mem_append.mp hq with h | h
    · exact List.mem_append.mpr (Or.inl ((hsend q).mpr h))
    · exact List.mem_append.mpr (Or.inr h)
  refine ⟨?_, ?_, ?_, rfl, rfl, ?_, hsends, ?_, ?_⟩
  · simp [RoomActor.handle_join, h1, hc2, hcs, h3n, hmin, hmem, hps,
      RoomActor.transition_to_starting]
  · simp [RoomActor.handle_join, h1, hc2, hcs, h3n, hmin, hmem, hps,
      RoomActor.transition_to_starting]
  · simp [RoomActor.handle_join, h1, hc2, hcs, h3n, hmin, hmem, hps,
      RoomActor.transition_to_starting]
  · simp [RoomActor.handle_join, h1, hc2, hcs, h3n, hmin, hmem, hps,
      RoomActor.transition_to_starting]
  · intro q hq
    rw [hsends]
    exact countP_fst_map_one q _ _ (by simp [List.nodup_append, hnd, hmem]) hq
  · simp [RoomActor.handle_join, h1, hc2, hcs, h3n, hmin, hmem, hps,
      RoomActor.transition_to_starting, RoomActor.info]

/-- Witness for C3: a fresh room with `min_players = 1, max_players = 2`
auto-starts on the very first join, sending player 5 exactly one snapshot
and reporting `InProgress`. -/
theorem room_auto_start_witness :
    ((RoomActor.initial UnitGame 0 ⟨1, 2, 0, 30, false, 0⟩ ()).handle_join
        5).2.1 = .ok () ∧
    ((RoomActor.initial UnitGame 0 ⟨1, 2, 0, 30, false, 0⟩ ()).handle_join
        5).1.state = RoomState.inProgress ∧
    ((RoomActor.initial UnitGame 0 ⟨1, 2, 0, 30, false, 0⟩ ()).handle_join
        5).2.2.2 = [RoomState.starting, RoomState.inProgress] ∧
    (∀ q ∈ ([] : List PlayerId) ++ [5],
      (((RoomActor.initial UnitGame 0 ⟨1, 2, 0, 30, false, 0⟩
        ()).handle_join 5).2.2.1.countP (fun e => decide (e.1 = q))) = 1) ∧
    ((RoomActor.initial UnitGame 0 ⟨1, 2, 0, 30, false, 0⟩ ()).handle_join
        5).1.info.state = RoomState.inProgress := by
  have h := room_auto_start (RoomActor.initial UnitGame 0
      ⟨1, 2, 0, 30, false, 0⟩ ()) 5
    ⟨0, ⟨1, 2, 0, 30, false, 0⟩, (), [], rfl⟩ rfl (by simp [RoomActor.initial])
    (by decide) (by decide)
  exact ⟨h.1, h.2.1, h.2.2.1, h.2.2.2.2.2.2.2.1, h.2.2.2.2.2.2.2.2⟩

-- =========================================================================
-- C7: game_state presence vs room state (corrected)
-- =========================================================================

/-- Counterexample to C7 as stated: in the room reached by a join that
auto-starts the game followed by `Shutdown`, the state is `Destroying` —
outside `{Starting, InProgress, Finished}` — yet `game_state` is still
`Some` (the `Shutdown` branch sets `Destroying` and breaks without
clearing `game_state`), so the claimed equivalence fails on a reachable
room-actor state. -/
theorem room_game_state_iff_counterexample :
    RoomActor.Reachable
      ((RoomActor.initial UnitGame 0 ⟨1, 4, 0, 30, false, 0⟩ ()).runCmds
        [RoomCmd.join 1, RoomCmd.shutdown]) ∧
    ((RoomActor.initial UnitGame 0 ⟨1, 4, 0, 30, false, 0⟩ ()).runCmds
        [RoomCmd.join 1, RoomCmd.shutdown]).state = RoomState.destroying ∧
    ¬ (((RoomActor.initial UnitGame 0 ⟨1, 4, 0, 30, false, 0⟩ ()).runCmds
          [RoomCmd.join 1, RoomCmd.shutdown]).game_state.isSome = true ↔
        (((RoomActor.initial UnitGame 0 ⟨1, 4, 0, 30, false, 0⟩ ()).runCmds
            [RoomCmd.join 1, RoomCmd.shutdown]).state = RoomState.starting ∨
         ((RoomActor.initial UnitGame 0 ⟨1, 4, 0, 30, false, 0⟩ ()).runCmds
            [RoomCmd.join 1, RoomCmd.shutdown]).state = RoomState.inProgress ∨
         ((RoomActor.initial UnitGame 0 ⟨1, 4, 0, 30, false, 0⟩ ()).runCmds
            [RoomCmd.join 1, RoomCmd.shutdown]).state =
              RoomState.finished)) := by
  refine ⟨⟨0, ⟨1, 4, 0, 30, false, 0⟩, (), [RoomCmd.join 1, RoomCmd.shutdown],
    rfl⟩, rfl, ?_⟩
  intro hiff
  rcases hiff.mp rfl with h | h | h <;> exact RoomState.noConfusion h

/-- C7 amended: in every reachable room-actor state other than the
terminal `Destroying` state, `game_state` is `Some` exactly when the room
state is in `{Starting, InProgress, Finished}` (in `Destroying`,
`game_state` keeps whatever value it had when `Shutdown` arrived). -/
theorem room_game_state_iff_started {G : GameModel} (a : RoomActor G)
    (h : a.Reachable) (hd : a.state ≠ RoomState.destroying) :
    (a.game_state.isSome = true ↔
      (a.state = RoomState.starting ∨ a.state = RoomState.inProgress ∨
       a.state = RoomState.finished)) :=
  (roomInv_reachable h).2.2.2 hd

/-- Witness for the amended C7: the room reached by one auto-starting join
is `InProgress` with a game state present. -/
theorem room_game_state_iff_started_witness :
    (((RoomActor.initial UnitGame 0 ⟨1, 4, 0, 30, false, 0⟩ ()).runCmds
        [RoomCmd.join 1]).game_state.isSome = true ↔
      (((RoomActor.initial UnitGame 0 ⟨1, 4, 0, 30, false, 0⟩ ()).runCmds
          [RoomCmd.join 1]).state = RoomState.starting ∨
       ((RoomActor.initial UnitGame 0 ⟨1, 4, 0, 30, false, 0⟩ ()).runCmds
          [RoomCmd.join 1]).state = RoomState.inProgress ∨
       ((RoomActor.initial UnitGame 0 ⟨1, 4, 0, 30, false, 0⟩ ()).runCmds
          [RoomCmd.join 1]).state = RoomState.finished)) :=
  room_game_state_iff_started _
    ⟨0, ⟨1, 4, 0, 30, false, 0⟩, (), [RoomCmd.join 1], rfl⟩
    (fun h => RoomState.noConfusion h)

-- =========================================================================
-- Helper lemmas: JSON round trip
-- =========================================================================

theorem channel_roundtrip (c : Channel) :
    Channel.fromJson c.toJson = some c := by
  cases c <;> rfl

theorem byteElems_roundtrip (bs : List Nat) (h : ∀ b ∈ bs, b < u8Bound) :
    decodeByteElems (bs.map Json.num) = some bs := by
  induction bs with
  | nil => rfl
  | cons b rest ih =>
      simp [decodeByteElems, h b (List.mem_cons_self b rest),
        ih (fun x hx => h x (List.mem_cons_of_mem _ hx))]

theorem bytes_roundtrip (bs : List Nat) (h : ∀ b ∈ bs, b < u8Bound) :
    decodeBytes (bytesToJson bs) = some bs := by
  simp [decodeBytes, bytesToJson, byteElems_roundtrip bs h]

theorem entry_roundtrip (e : RoomListEntry) (h1 : e.room_id < u64Bound)
    (h2 : e.player_count < u64Bound) (h3 : e.max_players < u64Bound) :
    RoomListEntry.fromJson e.toJson = some e := by
  simp [RoomListEntry.fromJson, RoomListEntry.toJson, Json.getNat,
    Json.getField, findField, h1, h2, h3]

theorem entries_roundtrip (rs : List RoomListEntry)
    (h : ∀ e ∈ rs, e.room_id < u64Bound ∧ e.player_count < u64Bound ∧
      e.max_players < u64Bound) :
    decodeEntries (rs.map RoomListEntry.toJson) = some rs := by
  induction rs with
  | nil => rfl
  | cons e rest ih =>
      obtain ⟨h1, h2, h3⟩ := h e (List.mem_cons_self e rest)
      simp [decodeEntries, entry_roundtrip e h1 h2 h3,
        ih (fun x hx => h x (List.mem_cons_of_mem _ hx))]

theorem system_message_roundtrip (m : SystemMessage) (h : m.wf) :
    SystemMessage.fromJson m.toJson = some m := by
  cases m with
  | handshake version token =>
      simp only [SystemMessage.wf] at h
      cases token with
      | none =>
          simp [SystemMessage.toJson, SystemMessage.fromJson, Json.getStr,
            Json.getNat, Json.getField, findField, decodeTokenField,
            optStrToJson, h]
      | some s =>
          simp [SystemMessage.toJson, SystemMessage.fromJson, Json.getStr,
            Json.getNat, Json.getField, findField, decodeTokenField,
            optStrToJson, h]
  | handshakeAck player_id server_time =>
      obtain ⟨h1, h2⟩ := h
      simp [SystemMessage.toJson, SystemMessage.fromJson, Json.getStr,
        Json.getNat, Json.getField, findField, h1, h2]
  | disconnect reason =>
      simp [SystemMessage.toJson, SystemMessage.fromJson, Json.getStr,
        Json.getField, findField]
  | heartbeat client_time =>
      simp only [SystemMessage.wf] at h
      simp [SystemMessage.toJson, SystemMessage.fromJson, Json.getStr,
        Json.getNat, Json.getField, findField, h]
  | heartbeatAck client_time server_time =>
      obtain ⟨h1, h2⟩ := h
      simp [SystemMessage.toJson, SystemMessage.fromJson, Json.getStr,
        Json.getNat, Json.getField, findField, h1, h2]
  | joinRoom room_id =>
      simp only [SystemMessage.wf] at h
      simp [SystemMessage.toJson, SystemMessage.fromJson, Json.getStr,
        Json.getNat, Json.getField, findField, h]
  | joinOrCreate name options =>
      simp [SystemMessage.toJson, SystemMessage.fromJson, Json.getStr,
        Json.getNat, Json.getField, findField, bytesToJson,
        byteElems_roundtrip options h, decodeBytes]
  | leaveRoom =>
      simp [SystemMessage.toJson, SystemMessage.fromJson, Json.getStr,
        Json.getField, findField]
  | listRooms =>
      simp [SystemMessage.toJson, SystemMessage.fromJson, Json.getStr,
        Json.getField, findField]
  | roomList rooms =>
      simp [SystemMessage.toJson, SystemMessage.fromJson, Json.getStr,
        Json.getField, findField, entries_roundtrip rooms h]
  | roomState data =>
      simp [SystemMessage.toJson, SystemMessage.fromJson, Json.getStr,
        Json.getField, findField, bytesToJson, byteElems_roundtrip data h,
        decodeBytes]
  | roomJoined room_id session_id =>
      simp only [SystemMessage.wf] at h
      simp [SystemMessage.toJson, SystemMessage.fromJson, Json.getStr,
        Json.getNat, Json.getField, findField, h]
  | error code message =>
      simp only [SystemMessage.wf] at h
      simp [SystemMessage.toJson, SystemMessage.fromJson, Json.getStr,
        Json.getNat, Json.getField, findField, h]

theorem payload_roundtrip (p : Payload) (h : p.wf) :
    Payload.fromJson p.toJson = some p := by
  cases p with
  | system msg =>
      simp [Payload.toJson, Payload.fromJson, Json.getStr, Json.getField,
        findField, system_message_roundtrip msg h]
  | game data =>
      simp [Payload.toJson, Payload.fromJson, Json.getStr, Json.getField,
        findField, bytesToJson, byteElems_roundtrip data h, decodeBytes]

-- =========================================================================
-- C5: envelope JSON round trip and the channel default
-- =========================================================================

/-- C5: For every well-formed envelope `e` (field values within the widths
the Rust integer types guarantee), decoding the JSON encoding of `e` gives
`e` back structurally: `JsonCodec.decode (JsonCodec.encode e) = some e`;
and an envelope object encoded without the `channel` field decodes with
`channel = ReliableOrdered` (the serde default). -/
theorem envelope_json_roundtrip :
    (∀ e : Envelope, e.wf →
      JsonCodec.decode (JsonCodec.encode e) = some e) ∧
    (∀ (seq timestamp : Nat) (payload : Payload), seq < u64Bound →
      timestamp < u64Bound → payload.wf →
      Envelope.fromJson (.obj [("seq", .num seq),
        ("timestamp", .num timestamp), ("payload", payload.toJson)]) =
        some ⟨seq, timestamp, Channel.reliableOrdered, payload⟩) := by
  constructor
  · intro e h
    obtain ⟨h1, h2, h3⟩ := h
    simp [JsonCodec.decode, JsonCodec.encode, Envelope.toJson,
      Envelope.fromJson, Json.getNat, Json.getField, findField, h1, h2,
      channel_roundtrip, payload_roundtrip e.payload h3]
  · intro seq timestamp payload h1 h2 h3
    simp [Envelope.fromJson, Json.getNat, Json.getField, findField, h1, h2,
      Channel.default, payload_roundtrip payload h3]

/-- Witness for C5: a concrete envelope on the `Unreliable` channel with a
3-byte game payload round-trips, and the same envelope encoded without the
`channel` field decodes with `channel = ReliableOrdered`. -/
theorem envelope_json_roundtrip_witness :
    (Envelope.mk 1 100 Channel.unreliable (Payload.game [1, 2, 3])).wf ∧
    JsonCodec.decode (JsonCodec.encode
      (Envelope.mk 1 100 Channel.unreliable (Payload.game [1, 2, 3]))) =
      some (Envelope.mk 1 100 Channel.unreliable (Payload.game [1, 2, 3])) ∧
    Envelope.fromJson (.obj [("seq", .num 1), ("timestamp", .num 100),
        ("payload", (Payload.game [1, 2, 3]).toJson)]) =
      some (Envelope.mk 1 100 Channel.reliableOrdered
        (Payload.game [1, 2, 3])) := by
  refine ⟨by decide, ?_, ?_⟩
  · exact envelope_json_roundtrip.1 _ (by decide)
  · exact envelope_json_roundtrip.2 1 100 (Payload.game [1, 2, 3])
      (by decide) (by decide) (by decide)
